import Mathlib

/-!
Shallow embedding of the mc-vc audio-capture core.

`RecorderState` models `VoiceRecorder` from
`src/core/audio/voice_recorder.py`: a pre-allocated sample buffer of
`maxSamples = sample_rate * 20` entries, a write cursor
(`_buffer_position`), the two lifecycle booleans `_is_recording` and
`_stream_active`, the optional stream handle, and the optional
buffer-full callback (modelled as a `hasCallback` flag plus a count of
notifier invocations).  Samples are an opaque type `α`: the recorder
only ever copies them, never computes with them.

External effects are made explicit: stream construction during
`start_recording` may fail (`ctorErr`), and closing the stream during
`_cleanup_stream` may fail (`closeOk`); log output relevant to the
claims is returned as a list of strings.
-/

structure RecorderState (α : Type) where
  maxSamples : Nat
  buffer : List α
  bufferPosition : Nat
  isRecording : Bool
  streamActive : Bool
  stream : Option Unit
  hasCallback : Bool
  notifyCount : Nat
deriving DecidableEq, Repr

/-- `VoiceRecorder.__init__`: pre-allocates `sample_rate * 20` zero
samples and clears all bookkeeping. -/
def mkRecorder {α : Type} (sampleRate : Nat) (z : α) (hasCallback : Bool) :
    RecorderState α :=
  { maxSamples := sampleRate * 20
    buffer := List.replicate (sampleRate * 20) z
    bufferPosition := 0
    isRecording := false
    streamActive := false
    stream := none
    hasCallback := hasCallback
    notifyCount := 0 }

/-- numpy slice assignment `buf[pos : pos + len(chunk)] = chunk`. -/
def writeSlice {α : Type} (buf : List α) (pos : Nat) (chunk : List α) :
    List α :=
  buf.take pos ++ chunk ++ buf.drop (pos + chunk.length)

/-- `VoiceRecorder._cleanup_stream`: always clears `_stream_active`; if a
stream handle exists it is stopped and closed, a close failure is logged
(second component) and swallowed, and the handle is cleared in the
`finally` block regardless. -/
def cleanupStream {α : Type} (closeOk : Bool) (s : RecorderState α) :
    RecorderState α × List String :=
  let s1 := { s with streamActive := false }
  match s1.stream with
  | none => (s1, [])
  | some _ =>
      if closeOk then ({ s1 with stream := none }, [])
      else ({ s1 with stream := none }, ["Error cleaning up stream"])

/-- `VoiceRecorder.start_recording`: no-op (with a warning) when already
recording; otherwise force-cleans a stale stream, resets the cursor,
sets both flags, and constructs the device stream.  `ctorErr = some e`
models `sd.InputStream(...)` / `stream.start()` raising `e`: the except
branch clears both flags, cleans up, and raises
`AudioProcessingError("Failed to start recording: " + e)`. -/
def startRecording {α : Type} (ctorErr : Option String) (closeOk : Bool)
    (s : RecorderState α) : RecorderState α × Except String Unit :=
  if s.isRecording then (s, Except.ok ())
  else
    let s1 := if s.streamActive then (cleanupStream closeOk s).1 else s
    let s2 := { s1 with bufferPosition := 0, isRecording := true,
                        streamActive := true }
    match ctorErr with
    | none => ({ s2 with stream := some () }, Except.ok ())
    | some e =>
        let s3 := { s2 with isRecording := false, streamActive := false }
        ((cleanupStream closeOk s3).1,
          Except.error ("Failed to start recording: " ++ e))

/-- The body of `VoiceRecorder.stop_recording`'s `try` block: clean up
the stream, then under the buffer lock fail with `"No audio data
captured"` when the cursor is 0, else return a copy of
`buffer[0 : position]`. -/
def stopRecordingBody {α : Type} (closeOk : Bool) (s : RecorderState α) :
    RecorderState α × Except String (List α) :=
  let s1 := (cleanupStream closeOk s).1
  if s1.bufferPosition = 0 then
    (s1, Except.error "No audio data captured")
  else
    (s1, Except.ok (s1.buffer.take s1.bufferPosition))

/-- `VoiceRecorder.stop_recording`: records `was_recording`, clears
`_is_recording`, returns an empty array (with a warning) when neither
flag was set, and otherwise runs the `try` body, re-wrapping any raised
error as `"Failed to stop recording: " + e`. -/
def stopRecording {α : Type} (closeOk : Bool) (s : RecorderState α) :
    RecorderState α × Except String (List α) :=
  let wasRecording := s.isRecording
  let s0 := { s with isRecording := false }
  if wasRecording = false ∧ s0.streamActive = false then
    (s0, Except.ok [])
  else
    match stopRecordingBody closeOk s0 with
    | (s1, Except.ok data) => (s1, Except.ok data)
    | (s1, Except.error e) =>
        (s1, Except.error ("Failed to stop recording: " ++ e))

/-- `VoiceRecorder._audio_callback` on an (already channel-extracted)
chunk: returns immediately when not recording; under the buffer lock,
if the chunk does not fit it stops accepting data and fires the
buffer-full callback (when one is registered), leaving buffer and
cursor untouched; otherwise it copies the chunk into the pre-allocated
buffer and advances the cursor. -/
def audioCallback {α : Type} (chunk : List α) (s : RecorderState α) :
    RecorderState α :=
  if s.isRecording = false then s
  else if s.bufferPosition + chunk.length > s.maxSamples then
    let s1 := { s with isRecording := false }
    if s.hasCallback then { s1 with notifyCount := s1.notifyCount + 1 }
    else s1
  else
    { s with buffer := writeSlice s.buffer s.bufferPosition chunk
             bufferPosition := s.bufferPosition + chunk.length }

/-- A sequence of audio-callback deliveries, in order. -/
def runCallbacks {α : Type} (chunks : List (List α)) (s : RecorderState α) :
    RecorderState α :=
  chunks.foldl (fun t c => audioCallback c t) s

/-!
Lock-event trace of one `_audio_callback` invocation, used to settle
where the buffer-full callback runs relative to `_buffer_lock`.
-/

inductive LockEv where
  | acquire
  | release
  | notify
  | write
deriving DecidableEq, Repr

/-- The sequence of lock and effect events one `_audio_callback` call
emits, read off the source line by line: the early return produces
nothing; otherwise the lock is acquired, and on the overflow branch the
buffer-full callback (when registered) is invoked before the `return`
releases the `with` block, while the fitting branch copies and then
releases. -/
def audioCallbackTrace {α : Type} (chunk : List α) (s : RecorderState α) :
    List LockEv :=
  if s.isRecording = false then []
  else if s.bufferPosition + chunk.length > s.maxSamples then
    [LockEv.acquire] ++
      (if s.hasCallback then [LockEv.notify] else []) ++ [LockEv.release]
  else [LockEv.acquire, LockEv.write, LockEv.release]

/-- Checks the claim shape "every notifier invocation happens with the
lock NOT held": scans a trace keeping the lock depth and requires depth
0 at every `notify`. -/
def notifyFree : Nat → List LockEv → Bool
  | _, [] => true
  | d, LockEv.acquire :: r => notifyFree (d + 1) r
  | d, LockEv.release :: r => notifyFree (d - 1) r
  | d, LockEv.notify :: r => decide (d = 0) && notifyFree d r
  | d, LockEv.write :: r => notifyFree d r

/-- Scans a trace keeping the lock depth and requires a positive depth
(lock held) at every `notify`. -/
def notifiesHeld : Nat → List LockEv → Bool
  | _, [] => true
  | d, LockEv.acquire :: r => notifiesHeld (d + 1) r
  | d, LockEv.release :: r => notifiesHeld (d - 1) r
  | d, LockEv.notify :: r => decide (0 < d) && notifiesHeld d r
  | d, LockEv.write :: r => notifiesHeld d r

/-!
Shallow embedding of `HotkeyManager` from
`src/core/input/hotkey_manager.py`.  The keyboard hooks deliver raw
down/up events for a logical key; `_on_key_down` / `_on_key_up`
de-duplicate them through the `_pressed_keys` set (a `Finset String`
here, matching Python set semantics) and emit the start/stop callback
invocations, which we collect as a list of `HkOut` events.
-/

structure HotkeyState where
  pressed : Finset String
  isRunning : Bool
deriving DecidableEq

inductive HkEvent where
  | down (k : String)
  | up (k : String)
deriving DecidableEq, Repr

inductive HkOut where
  | start (k : String)
  | stop (k : String)
deriving DecidableEq, Repr

/-- The logical key an event concerns. -/
def hkKey : HkEvent → String
  | HkEvent.down k => k
  | HkEvent.up k => k

/-- `HotkeyManager._on_key_down`: ignored when not running; under the
key lock, a key not yet in `_pressed_keys` is added and the start
callback fires, otherwise nothing happens. -/
def onKeyDown (k : String) (s : HotkeyState) : HotkeyState × List HkOut :=
  if s.isRunning = false then (s, [])
  else if k ∈ s.pressed then (s, [])
  else ({ s with pressed := insert k s.pressed }, [HkOut.start k])

/-- `HotkeyManager._on_key_up`: ignored when not running; under the key
lock, a key currently in `_pressed_keys` is removed and the stop
callback fires, otherwise nothing happens. -/
def onKeyUp (k : String) (s : HotkeyState) : HotkeyState × List HkOut :=
  if s.isRunning = false then (s, [])
  else if k ∈ s.pressed then
    ({ s with pressed := s.pressed.erase k }, [HkOut.stop k])
  else (s, [])

/-- Dispatch one raw keyboard event. -/
def hkStep (s : HotkeyState) (e : HkEvent) : HotkeyState × List HkOut :=
  match e with
  | HkEvent.down k => onKeyDown k s
  | HkEvent.up k => onKeyUp k s

/-- Run a sequence of raw keyboard events, concatenating the emitted
callback invocations in order. -/
def hkRun (es : List HkEvent) (s : HotkeyState) : HotkeyState × List HkOut :=
  match es with
  | [] => (s, [])
  | e :: rest =>
      let p1 := hkStep s e
      let p2 := hkRun rest p1.1
      (p2.1, p1.2 ++ p2.2)

/-- Alternation checker for emitted callbacks: given whether the key is
currently held, a start is legal only when it is not held and a stop
only when it is; returns the final held state when the emission
sequence alternates correctly, `none` otherwise. -/
def altChk (b : Bool) : List HkOut → Option Bool
  | [] => some b
  | HkOut.start _ :: r => if b then none else altChk true r
  | HkOut.stop _ :: r => if b then altChk false r else none

/-- A freshly constructed recorder (sample rate 1, so capacity 20, with
a buffer-full callback registered) on which `start_recording` has
succeeded: the state concrete scenarios are run from. -/
def startedRecorder : RecorderState Int :=
  (startRecording none true (mkRecorder 1 0 true)).1

/-! Helper lemmas. -/

lemma writeSlice_length {α : Type} (buf : List α) (pos : Nat) (chunk : List α)
    (h : pos + chunk.length ≤ buf.length) :
    (writeSlice buf pos chunk).length = buf.length := by
  simp [writeSlice, List.length_take, List.length_drop]
  omega

lemma writeSlice_take {α : Type} (buf : List α) (pos : Nat) (chunk : List α)
    (h : pos + chunk.length ≤ buf.length) :
    (writeSlice buf pos chunk).take (pos + chunk.length)
      = buf.take pos ++ chunk := by
  apply List.take_left'
  simp [List.length_take]
  omega

lemma audioCallback_of_not_recording {α : Type} (chunk : List α)
    (s : RecorderState α) (h : s.isRecording = false) :
    audioCallback chunk s = s := by
  simp [audioCallback, h]

lemma runCallbacks_of_not_recording {α : Type} (chunks : List (List α))
    (s : RecorderState α) (h : s.isRecording = false) :
    runCallbacks chunks s = s := by
  induction chunks with
  | nil => rfl
  | cons c rest ih =>
      show runCallbacks rest (audioCallback c s) = s
      rw [audioCallback_of_not_recording c s h, ih]

lemma runCallbacks_cons {α : Type} (c : List α) (rest : List (List α))
    (s : RecorderState α) :
    runCallbacks (c :: rest) s = runCallbacks rest (audioCallback c s) := rfl

/-- Fitting writes: as long as every delivered chunk still fits, a run of
audio callbacks keeps recording, advances the cursor by the total chunk
length, appends the chunks' concatenation to the captured region, and
touches no other field. -/
lemma runCallbacks_fits {α : Type} (chunks : List (List α)) :
    ∀ s : RecorderState α, s.isRecording = true →
    s.buffer.length = s.maxSamples →
    s.bufferPosition + (chunks.map List.length).sum ≤ s.maxSamples →
    (runCallbacks chunks s).isRecording = true ∧
    (runCallbacks chunks s).maxSamples = s.maxSamples ∧
    (runCallbacks chunks s).buffer.length = s.maxSamples ∧
    (runCallbacks chunks s).bufferPosition
      = s.bufferPosition + (chunks.map List.length).sum ∧
    (runCallbacks chunks s).buffer.take (runCallbacks chunks s).bufferPosition
      = s.buffer.take s.bufferPosition ++ chunks.flatten ∧
    (runCallbacks chunks s).streamActive = s.streamActive ∧
    (runCallbacks chunks s).stream = s.stream ∧
    (runCallbacks chunks s).notifyCount = s.notifyCount ∧
    (runCallbacks chunks s).hasCallback = s.hasCallback := by
  induction chunks with
  | nil =>
      intro s hrec hlen _
      simp [runCallbacks, hrec, hlen]
  | cons c rest ih =>
      intro s hrec hlen hsum
      rw [runCallbacks_cons]
      have hfit : ¬ s.bufferPosition + c.length > s.maxSamples := by
        simp [List.map_cons, List.sum_cons] at hsum
        omega
      have hstep : audioCallback c s =
          { s with buffer := writeSlice s.buffer s.bufferPosition c,
                   bufferPosition := s.bufferPosition + c.length } := by
        simp [audioCallback, hrec, hfit]
      have hc_le : s.bufferPosition + c.length ≤ s.buffer.length := by
        rw [hlen]; omega
      have hlen' : (audioCallback c s).buffer.length
          = (audioCallback c s).maxSamples := by
        rw [hstep]
        simpa using (writeSlice_length s.buffer s.bufferPosition c hc_le).trans hlen
      have hsum' : (audioCallback c s).bufferPosition
          + (rest.map List.length).sum ≤ (audioCallback c s).maxSamples := by
        rw [hstep]
        simp [List.map_cons, List.sum_cons] at hsum ⊢
        omega
      have hrec' : (audioCallback c s).isRecording = true := by
        rw [hstep]; exact hrec
      have ht_max : (audioCallback c s).maxSamples = s.maxSamples := by
        rw [hstep]
      have ht_pos : (audioCallback c s).bufferPosition
          = s.bufferPosition + c.length := by
        rw [hstep]
      have ht_sa : (audioCallback c s).streamActive = s.streamActive := by
        rw [hstep]
      have ht_st : (audioCallback c s).stream = s.stream := by
        rw [hstep]
      have ht_nc : (audioCallback c s).notifyCount = s.notifyCount := by
        rw [hstep]
      have ht_cb : (audioCallback c s).hasCallback = s.hasCallback := by
        rw [hstep]
      have ht_take : (audioCallback c s).buffer.take
            (audioCallback c s).bufferPosition
          = s.buffer.take s.bufferPosition ++ c := by
        rw [hstep]
        exact writeSlice_take s.buffer s.bufferPosition c hc_le
      obtain ⟨h1, h2, h3, h4, h5, h6, h7, h8, h9⟩ :=
        ih (audioCallback c s) hrec' hlen' hsum'
      refine ⟨h1, h2.trans ht_max, ?_, ?_, ?_, h6.trans ht_sa, h7.trans ht_st,
        h8.trans ht_nc, h9.trans ht_cb⟩
      · rw [h3, ht_max]
      · rw [h4, ht_pos]
        simp [List.map_cons, List.sum_cons]
        omega
      · rw [h5, ht_take, List.flatten_cons, List.append_assoc]

/-- On the overflow branch, `_audio_callback` stops accepting data: the
resulting state is no longer recording, and buffer, cursor and lifecycle
fields are untouched; the notifier count rises by one exactly when a
callback is registered. -/
lemma audioCallback_overflow {α : Type} (chunk : List α)
    (s : RecorderState α) (hrec : s.isRecording = true)
    (hover : s.bufferPosition + chunk.length > s.maxSamples) :
    (audioCallback chunk s).isRecording = false ∧
    (audioCallback chunk s).buffer = s.buffer ∧
    (audioCallback chunk s).bufferPosition = s.bufferPosition ∧
    (audioCallback chunk s).maxSamples = s.maxSamples ∧
    (audioCallback chunk s).streamActive = s.streamActive ∧
    (audioCallback chunk s).stream = s.stream ∧
    (audioCallback chunk s).notifyCount
      = s.notifyCount + (if s.hasCallback then 1 else 0) := by
  cases hcb : s.hasCallback <;> simp [audioCallback, hrec, hover, hcb]

/-- Across any run of audio callbacks the notifier count rises by at
most one: once the overflow branch has fired it, `_is_recording` is
false and every later callback returns at the top. -/
lemma runCallbacks_notifyCount_le {α : Type} (chunks : List (List α)) :
    ∀ s : RecorderState α,
    (runCallbacks chunks s).notifyCount ≤ s.notifyCount + 1 := by
  induction chunks with
  | nil => intro s; simp [runCallbacks]
  | cons c rest ih =>
      intro s
      rw [runCallbacks_cons]
      by_cases hrec : s.isRecording = true
      · by_cases hover : s.bufferPosition + c.length > s.maxSamples
        · obtain ⟨h1, _, _, _, _, _, h7⟩ :=
            audioCallback_overflow c s hrec hover
          rw [runCallbacks_of_not_recording rest _ h1, h7]
          cases s.hasCallback <;> simp
        · have hstep : audioCallback c s =
              { s with buffer := writeSlice s.buffer s.bufferPosition c,
                       bufferPosition := s.bufferPosition + c.length } := by
            simp [audioCallback, hrec, hover]
          calc (runCallbacks rest (audioCallback c s)).notifyCount
              ≤ (audioCallback c s).notifyCount + 1 := ih _
            _ = s.notifyCount + 1 := by rw [hstep]
      · have hrec' : s.isRecording = false := by
          cases h : s.isRecording
          · rfl
          · exact absurd h hrec
        rw [audioCallback_of_not_recording c s hrec',
          runCallbacks_of_not_recording rest s hrec']
        omega

/-- `_cleanup_stream` always yields the input state with
`_stream_active` cleared and the handle set to `None`, whether or not
closing succeeds. -/
lemma cleanupStream_fst {α : Type} (closeOk : Bool) (s : RecorderState α) :
    (cleanupStream closeOk s).1
      = { s with streamActive := false, stream := none } := by
  cases s with
  | mk ms buf pos rec sa st cb nc =>
      cases st <;> cases closeOk <;> simp [cleanupStream]

/-- When a session was recording, `stop_recording` clears all lifecycle
bookkeeping and either raises the wrapped no-audio error (cursor 0) or
returns the captured region. -/
lemma stopRecording_active {α : Type} (closeOk : Bool)
    (s : RecorderState α) (hrec : s.isRecording = true) :
    stopRecording closeOk s =
      if s.bufferPosition = 0 then
        ({ s with isRecording := false, streamActive := false,
                  stream := none },
          Except.error "Failed to stop recording: No audio data captured")
      else
        ({ s with isRecording := false, streamActive := false,
                  stream := none },
          Except.ok (s.buffer.take s.bufferPosition)) := by
  simp only [stopRecording]
  rw [if_neg (by simp [hrec])]
  simp only [stopRecordingBody, cleanupStream_fst]
  by_cases hpos : s.bufferPosition = 0
  · simp [hpos]
  · simp [hpos]

/-- When the overflow branch had already cleared `_is_recording` but the
stream is still pending cleanup, `stop_recording` still tears down and
returns the captured region (or the no-audio error at cursor 0). -/
lemma stopRecording_pending {α : Type} (closeOk : Bool)
    (s : RecorderState α) (hsa : s.streamActive = true) :
    stopRecording closeOk s =
      if s.bufferPosition = 0 then
        ({ s with isRecording := false, streamActive := false,
                  stream := none },
          Except.error "Failed to stop recording: No audio data captured")
      else
        ({ s with isRecording := false, streamActive := false,
                  stream := none },
          Except.ok (s.buffer.take s.bufferPosition)) := by
  simp only [stopRecording]
  rw [if_neg (by simp [hsa])]
  simp only [stopRecordingBody, cleanupStream_fst]
  by_cases hpos : s.bufferPosition = 0
  · simp [hpos]
  · simp [hpos]

/-- Every `stop_recording` call, from any state, leaves both lifecycle
booleans cleared. -/
lemma stopRecording_flags {α : Type} (closeOk : Bool) (s : RecorderState α) :
    (stopRecording closeOk s).1.isRecording = false ∧
    (stopRecording closeOk s).1.streamActive = false := by
  by_cases h : s.isRecording = false ∧ s.streamActive = false
  · simp only [stopRecording]
    rw [if_pos (by simp [h.1, h.2])]
    simp [h.2]
  · rcases Bool.eq_false_or_eq_true s.isRecording with hrec | hrec
    · rw [stopRecording_active closeOk s hrec]
      split <;> simp
    · have hsa : s.streamActive = true := by
        rcases Bool.eq_false_or_eq_true s.streamActive with hsa | hsa
        · exact hsa
        · exact absurd ⟨hrec, hsa⟩ h
      rw [stopRecording_pending closeOk s hsa]
      split <;> simp

/-- A state with both lifecycle booleans cleared is returned unchanged
by `stop_recording`, together with an empty result. -/
lemma stopRecording_inactive {α : Type} (closeOk : Bool)
    (s : RecorderState α) (h1 : s.isRecording = false)
    (h2 : s.streamActive = false) :
    stopRecording closeOk s = (s, Except.ok []) := by
  have hs : { s with isRecording := false } = s := by
    cases s; simp_all
  simp only [stopRecording]
  rw [if_pos (by simp [h1, h2]), hs]

/-- `start_recording` from a non-recording state with a failing stream
construction: both flags end cleared, the handle is `None`, the cursor
was reset, and the wrapped failure is raised. -/
lemma startRecording_fail {α : Type} (e : String) (closeOk : Bool)
    (s : RecorderState α) (hrec : s.isRecording = false) :
    startRecording (some e) closeOk s
      = ({ s with bufferPosition := 0, isRecording := false,
                  streamActive := false, stream := none },
          Except.error ("Failed to start recording: " ++ e)) := by
  cases s with
  | mk ms buf pos rec sa st cb nc =>
      subst hrec
      cases sa <;> cases st <;> cases closeOk <;>
        simp [startRecording, cleanupStream]

/-- `start_recording` from a non-recording state with a succeeding
stream construction: cursor reset, both flags set, handle installed. -/
lemma startRecording_ok {α : Type} (closeOk : Bool)
    (s : RecorderState α) (hrec : s.isRecording = false) :
    startRecording none closeOk s
      = ({ s with bufferPosition := 0, isRecording := true,
                  streamActive := true, stream := some () },
          Except.ok ()) := by
  cases s with
  | mk ms buf pos rec sa st cb nc =>
      subst hrec
      cases sa <;> cases st <;> cases closeOk <;>
        simp [startRecording, cleanupStream]

/-! Claim theorems. -/

/-- C1 (counterexample): as universally stated the claim fails for the
empty sequence of writes — its chunk lengths sum to 0 ≤ capacity, yet
`stop()` raises the wrapped no-audio error instead of returning the
(empty) concatenation. -/
theorem capture_concat_cex :
    (stopRecording true (runCallbacks ([] : List (List Int))
        startedRecorder)).2
      = Except.error "Failed to stop recording: No audio data captured" ∧
    (stopRecording true (runCallbacks ([] : List (List Int))
        startedRecorder)).2
      ≠ Except.ok (([] : List (List Int)).flatten) := by
  have he : (stopRecording true (runCallbacks ([] : List (List Int))
        startedRecorder)).2
      = Except.error "Failed to stop recording: No audio data captured" := rfl
  exact ⟨he, by rw [he]; simp⟩

/-- C1 (amended): for every sequence of writes delivered during a
session whose chunk lengths sum to at most the capacity and to at least
one sample, a subsequent `stop()` returns exactly the concatenation of
the written chunks, in order. -/
theorem capture_concat {α : Type} (closeOk : Bool) (chunks : List (List α))
    (s : RecorderState α) (hrec : s.isRecording = true)
    (hpos : s.bufferPosition = 0)
    (hlen : s.buffer.length = s.maxSamples)
    (hsum : (chunks.map List.length).sum ≤ s.maxSamples)
    (htot : 0 < (chunks.map List.length).sum) :
    (stopRecording closeOk (runCallbacks chunks s)).2
      = Except.ok chunks.flatten := by
  obtain ⟨h1, _, _, h4, h5, _, _, _, _⟩ :=
    runCallbacks_fits chunks s hrec hlen (by omega)
  rw [stopRecording_active closeOk _ h1, if_neg (by rw [h4, hpos]; omega)]
  show Except.ok ((runCallbacks chunks s).buffer.take
      (runCallbacks chunks s).bufferPosition) = _
  rw [h5, hpos]
  simp

/-- C1 witness: capacity 20, writes `[1,2]` then `[3,4]`, `stop()`
returns `[1,2,3,4]`. -/
theorem capture_concat_w :
    startedRecorder.isRecording = true ∧
    startedRecorder.bufferPosition = 0 ∧
    startedRecorder.buffer.length = startedRecorder.maxSamples ∧
    (([[1,2],[3,4]] : List (List Int)).map List.length).sum
        ≤ startedRecorder.maxSamples ∧
    0 < (([[1,2],[3,4]] : List (List Int)).map List.length).sum ∧
    (stopRecording true
        (runCallbacks ([[1,2],[3,4]] : List (List Int)) startedRecorder)).2
      = Except.ok ([[1,2],[3,4]] : List (List Int)).flatten :=
  ⟨by decide, by decide, by decide, by decide, by decide,
    capture_concat true [[1,2],[3,4]] startedRecorder (by decide) (by decide)
      (by decide) (by decide) (by decide)⟩

/-- C2: during a session, a chunk that fits (including exactly filling
the buffer) is copied in full after the captured region and the cursor
advances by its length with no notification; a chunk that does not fit
is rejected in full — buffer and cursor unchanged — and with a callback
registered the notifier fires at this write and at no later write of
the session. -/
theorem write_semantics {α : Type} (chunk : List α) (s : RecorderState α)
    (hrec : s.isRecording = true)
    (hlen : s.buffer.length = s.maxSamples) :
    (s.bufferPosition + chunk.length ≤ s.maxSamples →
      (audioCallback chunk s).bufferPosition
          = s.bufferPosition + chunk.length ∧
      (audioCallback chunk s).buffer.take (s.bufferPosition + chunk.length)
          = s.buffer.take s.bufferPosition ++ chunk ∧
      (audioCallback chunk s).isRecording = true ∧
      (audioCallback chunk s).notifyCount = s.notifyCount) ∧
    (s.bufferPosition + chunk.length > s.maxSamples →
      (audioCallback chunk s).buffer = s.buffer ∧
      (audioCallback chunk s).bufferPosition = s.bufferPosition ∧
      (s.hasCallback = true →
        (audioCallback chunk s).notifyCount = s.notifyCount + 1 ∧
        ∀ rest : List (List α),
          (runCallbacks rest (audioCallback chunk s)).notifyCount
            = s.notifyCount + 1)) := by
  constructor
  · intro hfit
    have hnover : ¬ s.bufferPosition + chunk.length > s.maxSamples := by
      omega
    have hstep : audioCallback chunk s =
        { s with buffer := writeSlice s.buffer s.bufferPosition chunk,
                 bufferPosition := s.bufferPosition + chunk.length } := by
      simp [audioCallback, hrec, hnover]
    rw [hstep]
    refine ⟨rfl, ?_, hrec, rfl⟩
    exact writeSlice_take s.buffer s.bufferPosition chunk (by omega)
  · intro hover
    obtain ⟨h1, h2, h3, _, _, _, h7⟩ :=
      audioCallback_overflow chunk s hrec hover
    refine ⟨h2, h3, fun hcb => ?_⟩
    rw [hcb] at h7
    simp at h7
    refine ⟨h7, fun rest => ?_⟩
    rw [runCallbacks_of_not_recording rest _ h1, h7]

/-- C2 witness: at capacity 20 with cursor 0, the chunk `[7]` fits: the
cursor advances to 1, the captured region becomes `[7]`, and no
notification fires. -/
theorem write_semantics_w :
    startedRecorder.isRecording = true ∧
    startedRecorder.buffer.length = startedRecorder.maxSamples ∧
    ((startedRecorder.bufferPosition + [(7:Int)].length
        ≤ startedRecorder.maxSamples →
      (audioCallback [(7:Int)] startedRecorder).bufferPosition
          = startedRecorder.bufferPosition + [(7:Int)].length ∧
      (audioCallback [(7:Int)] startedRecorder).buffer.take
          (startedRecorder.bufferPosition + [(7:Int)].length)
          = startedRecorder.buffer.take startedRecorder.bufferPosition
              ++ [(7:Int)] ∧
      (audioCallback [(7:Int)] startedRecorder).isRecording = true ∧
      (audioCallback [(7:Int)] startedRecorder).notifyCount
          = startedRecorder.notifyCount) ∧
    (startedRecorder.bufferPosition + [(7:Int)].length
        > startedRecorder.maxSamples →
      (audioCallback [(7:Int)] startedRecorder).buffer
          = startedRecorder.buffer ∧
      (audioCallback [(7:Int)] startedRecorder).bufferPosition
          = startedRecorder.bufferPosition ∧
      (startedRecorder.hasCallback = true →
        (audioCallback [(7:Int)] startedRecorder).notifyCount
            = startedRecorder.notifyCount + 1 ∧
        ∀ rest : List (List Int),
          (runCallbacks rest (audioCallback [(7:Int)] startedRecorder)).notifyCount
            = startedRecorder.notifyCount + 1))) :=
  ⟨by decide, by decide,
    write_semantics [(7:Int)] startedRecorder (by decide) (by decide)⟩

/-- C3 (counterexample): in the overflow branch the buffer-full
callback is invoked between the lock acquisition and its release — the
event trace of a 21-sample chunk against capacity 20 is
`[acquire, notify, release]`, so the "notifier runs without holding the
buffer lock" property is false at this input. -/
theorem notifier_lock_cex :
    audioCallbackTrace (List.replicate 21 (1 : Int)) startedRecorder
      = [LockEv.acquire, LockEv.notify, LockEv.release] ∧
    notifyFree 0 (audioCallbackTrace (List.replicate 21 (1 : Int))
        startedRecorder) = false := by
  constructor
  · decide
  · decide

/-- C3 (amended): the overflow notifier fires at most once per session
(across any run of writes the notification count rises by at most one),
and every notifier invocation happens while the buffer's
exclusive-access lock is held — so it can deadlock against a concurrent
`stop()` waiting on the same lock, rather than being unable to. -/
theorem notifier_once_and_locked {α : Type} (s : RecorderState α) :
    (∀ chunks : List (List α),
      (runCallbacks chunks s).notifyCount ≤ s.notifyCount + 1) ∧
    (∀ chunk : List α,
      notifiesHeld 0 (audioCallbackTrace chunk s) = true) := by
  constructor
  · intro chunks
    exact runCallbacks_notifyCount_le chunks s
  · intro chunk
    unfold audioCallbackTrace
    split
    · rfl
    · split
      · cases s.hasCallback <;> simp [notifiesHeld]
      · rfl

/-- C4: `stop()` on a session that started but captured zero samples
raises the (wrapped) no-audio error rather than returning an empty
sequence. -/
theorem stop_empty_error {α : Type} (closeOk : Bool) (s : RecorderState α)
    (hrec : s.isRecording = true) (hpos : s.bufferPosition = 0) :
    (stopRecording closeOk s).2
      = Except.error "Failed to stop recording: No audio data captured" := by
  rw [stopRecording_active closeOk s hrec, if_pos hpos]

/-- C4 witness: stopping the freshly started recorder before any write
raises the no-audio error. -/
theorem stop_empty_error_w :
    startedRecorder.isRecording = true ∧
    startedRecorder.bufferPosition = 0 ∧
    (stopRecording true startedRecorder).2
      = Except.error "Failed to stop recording: No audio data captured" :=
  ⟨by decide, by decide,
    stop_empty_error true startedRecorder (by decide) (by decide)⟩

/-- C5: `stop()` is idempotent: when no session is active (both
lifecycle booleans clear — including the fresh state and the state any
prior `stop()` leaves behind) it returns an empty sequence with the
recorder state unchanged, and a second consecutive `stop()` after any
first `stop()` does exactly that. -/
theorem stop_idempotent {α : Type} (closeOk closeOk' : Bool)
    (s t : RecorderState α)
    (h1 : s.isRecording = false) (h2 : s.streamActive = false) :
    stopRecording closeOk s = (s, Except.ok []) ∧
    stopRecording closeOk' ((stopRecording closeOk t).1)
      = ((stopRecording closeOk t).1, Except.ok []) := by
  constructor
  · exact stopRecording_inactive closeOk s h1 h2
  · obtain ⟨hf1, hf2⟩ := stopRecording_flags closeOk t
    exact stopRecording_inactive closeOk' _ hf1 hf2

/-- C5 witness: a `stop()` with no prior `start()` on the fresh
recorder returns the empty sequence unchanged, and a second `stop()`
right after stopping a started session is an empty no-op. -/
theorem stop_idempotent_w :
    (mkRecorder 1 (0:Int) true).isRecording = false ∧
    (mkRecorder 1 (0:Int) true).streamActive = false ∧
    stopRecording true (mkRecorder 1 (0:Int) true)
      = (mkRecorder 1 (0:Int) true, Except.ok []) ∧
    stopRecording false ((stopRecording true startedRecorder).1)
      = ((stopRecording true startedRecorder).1, Except.ok []) := by
  have h := stop_idempotent true false (mkRecorder 1 (0:Int) true)
    startedRecorder (by decide) (by decide)
  exact ⟨by decide, by decide, h.1, h.2⟩

/-- C6: when stream construction fails during `start()`, the controller
fully unwinds — not recording, stream inactive, no dangling handle — a
capture-start failure is raised to the caller, and an immediate retry
with a working stream succeeds and is recording again. -/
theorem start_failure_unwinds {α : Type} (e : String)
    (closeOk closeOk' : Bool) (s : RecorderState α)
    (hrec : s.isRecording = false) :
    (startRecording (some e) closeOk s).2
        = Except.error ("Failed to start recording: " ++ e) ∧
    (startRecording (some e) closeOk s).1.isRecording = false ∧
    (startRecording (some e) closeOk s).1.streamActive = false ∧
    (startRecording (some e) closeOk s).1.stream = none ∧
    (startRecording none closeOk'
        ((startRecording (some e) closeOk s).1)).2 = Except.ok () ∧
    (startRecording none closeOk'
        ((startRecording (some e) closeOk s).1)).1.isRecording = true := by
  rw [startRecording_fail e closeOk s hrec]
  refine ⟨rfl, rfl, rfl, rfl, ?_, ?_⟩ <;>
    rw [startRecording_ok closeOk' _ rfl]

/-- C6 witness: a failed `start()` on the fresh recorder raises, leaves
no handle, and a retry succeeds. -/
theorem start_failure_unwinds_w :
    (mkRecorder 1 (0:Int) true).isRecording = false ∧
    (startRecording (some "device busy") true (mkRecorder 1 (0:Int) true)).2
        = Except.error ("Failed to start recording: " ++ "device busy") ∧
    (startRecording (some "device busy") true
        (mkRecorder 1 (0:Int) true)).1.stream = none ∧
    (startRecording none true
        ((startRecording (some "device busy") true
            (mkRecorder 1 (0:Int) true)).1)).2 = Except.ok () := by
  have h := start_failure_unwinds "device busy" true true
    (mkRecorder 1 (0:Int) true) (by decide)
  exact ⟨by decide, h.1, h.2.2.2.1, h.2.2.2.2.1⟩

/-- C7: calling `start()` while a session is already active returns
without error and changes nothing at all: the entire recorder state —
cursor, buffer, stream handle, flags — is returned unchanged. -/
theorem start_while_active {α : Type} (ctorErr : Option String)
    (closeOk : Bool) (s : RecorderState α) (hrec : s.isRecording = true) :
    startRecording ctorErr closeOk s = (s, Except.ok ()) := by
  simp [startRecording, hrec]

/-- C7 witness: a second `start()` on the started recorder is an exact
no-op. -/
theorem start_while_active_w :
    startedRecorder.isRecording = true ∧
    startRecording none true startedRecorder
      = (startedRecorder, Except.ok ()) :=
  ⟨by decide, start_while_active none true startedRecorder (by decide)⟩

/-- C8: `_cleanup_stream` never propagates a close failure: its result
state always has the stream-active flag cleared and the handle absent,
whether the close succeeded or raised; a raising close with a live
handle produces only a logged warning. -/
theorem cleanup_always_clears {α : Type} (closeOk : Bool)
    (s : RecorderState α) :
    (cleanupStream closeOk s).1.streamActive = false ∧
    (cleanupStream closeOk s).1.stream = none ∧
    (closeOk = false → s.stream = some () →
      (cleanupStream closeOk s).2 = ["Error cleaning up stream"]) := by
  rw [cleanupStream_fst]
  refine ⟨rfl, rfl, fun hc hs => ?_⟩
  simp [cleanupStream, hs, hc]

/-- C8 witness: a failing close on the started recorder (live handle)
still clears the flag and the handle and logs the warning. -/
theorem cleanup_always_clears_w :
    (cleanupStream false startedRecorder).1.streamActive = false ∧
    (cleanupStream false startedRecorder).1.stream = none ∧
    ((false = false) → startedRecorder.stream = some () →
      (cleanupStream false startedRecorder).2
        = ["Error cleaning up stream"]) :=
  cleanup_always_clears false startedRecorder

/-- C10: once a chunk has been rejected by the overflow branch within a
session, that very call leaves buffer and cursor unchanged, and every
further sequence of deliveries before the next `start()` leaves the
entire recorder state — buffer and cursor included — exactly as the
overflow left it. -/
theorem overflow_freezes {α : Type} (chunk0 : List α)
    (chunks : List (List α)) (s : RecorderState α)
    (hrec : s.isRecording = true)
    (hover : s.bufferPosition + chunk0.length > s.maxSamples) :
    runCallbacks chunks (audioCallback chunk0 s) = audioCallback chunk0 s ∧
    (audioCallback chunk0 s).buffer = s.buffer ∧
    (audioCallback chunk0 s).bufferPosition = s.bufferPosition := by
  obtain ⟨h1, h2, h3, _⟩ := audioCallback_overflow chunk0 s hrec hover
  exact ⟨runCallbacks_of_not_recording chunks _ h1, h2, h3⟩

/-- C10 witness: after a 21-sample chunk overflows the capacity-20
session, later small chunks `[5]` and `[6]` change nothing. -/
theorem overflow_freezes_w :
    startedRecorder.isRecording = true ∧
    startedRecorder.bufferPosition
        + (List.replicate 21 (1:Int)).length > startedRecorder.maxSamples ∧
    runCallbacks [[5],[6]]
        (audioCallback (List.replicate 21 (1:Int)) startedRecorder)
      = audioCallback (List.replicate 21 (1:Int)) startedRecorder ∧
    (audioCallback (List.replicate 21 (1:Int)) startedRecorder).buffer
      = startedRecorder.buffer ∧
    (audioCallback (List.replicate 21 (1:Int)) startedRecorder).bufferPosition
      = startedRecorder.bufferPosition :=
  ⟨by decide, by decide,
    overflow_freezes (List.replicate 21 (1:Int)) [[5],[6]] startedRecorder
      (by decide) (by decide)⟩

/-- C9: for any raw event sequence concerning one logical key, the
emitted callbacks alternate start, stop, start, ... in step with the
held state: repeated "down" events while held emit exactly one start,
a stop is emitted only by a matching "up" after that start, and the
final held state matches the emission parity. -/
theorem hotkey_dedup (k : String) (es : List HkEvent) :
    ∀ s : HotkeyState, s.isRunning = true → (∀ e ∈ es, hkKey e = k) →
    altChk (decide (k ∈ s.pressed)) (hkRun es s).2
      = some (decide (k ∈ (hkRun es s).1.pressed)) := by
  induction es with
  | nil => intro s _ _; simp [hkRun, altChk]
  | cons e rest ih =>
      rintro ⟨P, run⟩ hrun hkeys
      simp only at hrun
      subst hrun
      have hek : hkKey e = k := hkeys e (by simp)
      have hrest : ∀ e' ∈ rest, hkKey e' = k := fun e' he' =>
        hkeys e' (by simp [he'])
      cases e with
      | down k' =>
          have hkk : k' = k := hek
          subst hkk
          by_cases hmem : k' ∈ P
          · simp only [hkRun, hkStep, onKeyDown]
            rw [if_neg (by simp), if_pos hmem]
            simpa using ih ⟨P, true⟩ rfl hrest
          · simp only [hkRun, hkStep, onKeyDown]
            rw [if_neg (by simp), if_neg hmem]
            simp only [List.cons_append, List.nil_append]
            have hb : decide (k' ∈ P) = false := by simp [hmem]
            show altChk (decide (k' ∈ P)) (HkOut.start k' ::
              (hkRun rest ⟨insert k' P, true⟩).2) = _
            rw [hb]
            simp only [altChk, Bool.false_eq_true, if_false]
            have := ih ⟨insert k' P, true⟩ rfl hrest
            simpa using this
      | up k' =>
          have hkk : k' = k := hek
          subst hkk
          by_cases hmem : k' ∈ P
          · simp only [hkRun, hkStep, onKeyUp]
            rw [if_neg (by simp), if_pos hmem]
            simp only [List.cons_append, List.nil_append]
            have hb : decide (k' ∈ P) = true := by simp [hmem]
            show altChk (decide (k' ∈ P)) (HkOut.stop k' ::
              (hkRun rest ⟨P.erase k', true⟩).2) = _
            rw [hb]
            simp only [altChk, if_true]
            have := ih ⟨P.erase k', true⟩ rfl hrest
            simpa using this
          · simp only [hkRun, hkStep, onKeyUp]
            rw [if_neg (by simp), if_neg hmem]
            simpa using ih ⟨P, true⟩ rfl hrest

/-- C9 witness: for the held-key trace down, down, up, up of key "f8"
from the idle running manager, the emitted callbacks alternate
correctly and the key ends released. -/
theorem hotkey_dedup_w :
    (⟨∅, true⟩ : HotkeyState).isRunning = true ∧
    (∀ e ∈ [HkEvent.down "f8", HkEvent.down "f8",
            HkEvent.up "f8", HkEvent.up "f8"], hkKey e = "f8") ∧
    altChk (decide ("f8" ∈ (⟨∅, true⟩ : HotkeyState).pressed))
        (hkRun [HkEvent.down "f8", HkEvent.down "f8",
                HkEvent.up "f8", HkEvent.up "f8"] ⟨∅, true⟩).2
      = some (decide ("f8" ∈
          (hkRun [HkEvent.down "f8", HkEvent.down "f8",
                  HkEvent.up "f8", HkEvent.up "f8"] ⟨∅, true⟩).1.pressed)) :=
  ⟨rfl, by decide,
    hotkey_dedup "f8"
      [HkEvent.down "f8", HkEvent.down "f8",
       HkEvent.up "f8", HkEvent.up "f8"] ⟨∅, true⟩ rfl (by decide)⟩
